import Mathlib

/-!
Verification of the retirement-simulation core (investpy.py).

The source is a small numpy program.  We embed it shallowly:

* numpy 2-D arrays become the structure `Mat`: explicit row/column counts
  plus a total entry function (entries outside the declared shape are
  irrelevant junk, exactly like memory beyond a slice).
* float arithmetic is idealised as exact rational arithmetic (`ℚ`),
  except that the one operation that produces NaN in the source
  (the 0/0 in `growth` when the rate is zero) is modelled explicitly:
  cells carry `Option ℚ`, with `none` standing for NaN.
* the float literal np.sqrt(12) is embedded as the IEEE-754 double
  nearest to the square root of 12, which is the value numpy computes.
* `np.random.randn(rows, cols)` is a matrix of standard-normal draws;
  we model the draws as an explicit parameter `z : ℕ → ℕ → ℚ`
  (randn never returns NaN or infinity, so a total rational-valued
  function is faithful), and `sims_matrix` scales it exactly as the
  source does.
* `np.round(x, 2)` rounds to 2 decimals with ties to even; `round2`
  below implements exactly that on `ℚ`.
* `pd.DataFrame` preserves shape and values, so it is the identity here.
-/

/-- A dense 2-D table: rows of the source arrays index time,
columns index simulation runs. -/
structure Mat (α : Type) where
  rows : ℕ
  cols : ℕ
  entry : ℕ → ℕ → α

/-- The IEEE-754 double-precision value of np.sqrt(12), as an exact
rational (the source divides annual stdevs by this constant). -/
def sqrt12 : ℚ := 3900231685776981 / 1125899906842624

/-- Round a rational to the nearest integer, ties to even: the rounding
mode of np.round. -/
def roundHalfEven (x : ℚ) : ℤ :=
  let f := ⌊x⌋
  if x - f < 1/2 then f
  else if 1/2 < x - f then f + 1
  else if f % 2 = 0 then f else f + 1

/-- np.round(x, 2): round to two decimal places, ties to even. -/
def round2 (x : ℚ) : ℚ := ((roundHalfEven (x * 100) : ℤ) : ℚ) / 100

/-- sims_matrix(rows, cols, mean, stdev) from the source:
x = np.random.randn(rows, cols); x = mean + (x * stdev).
The standard-normal draws are the parameter z. -/
def sims_matrix (rows cols : ℕ) (mean stdev : ℚ) (z : ℕ → ℕ → ℚ) : Mat ℚ :=
  ⟨rows, cols, fun i j => mean + z i j * stdev⟩

/-- growth(principal, rate, n, contribution) from the source:
t = 1;
compound_interest = principal * (1 + rate/n) ** (n*t);
contributions = contribution * (((1 + rate/n) ** (n*t) - 1) / (rate/n));
return np.round(compound_interest + contributions, 2).
When rate/n = 0 the contribution term is 0/0 = NaN in floating point,
and NaN propagates through the sum and np.round; we return `none` for
that case.  (All call sites in the source pass n = 1; we take n : ℕ so
that the float power is a genuine natural power, which coincides with
the source at every call site.) -/
def growth (principal rate : ℚ) (n : ℕ) (contribution : ℚ) : Option ℚ :=
  let t : ℕ := 1
  let q : ℚ := rate / (n : ℚ)
  if q = 0 then none
  else
    some (round2 (principal * (1 + q) ^ (n * t) +
      contribution * (((1 + q) ^ (n * t) - 1) / q)))

/-- Lines 50-54 of the source (growth_simulation): every one of the four
percent inputs is divided by 100, unconditionally. -/
def accNormalize (return_mean return_stdev raise_mean raise_stdev : ℚ) :
    ℚ × ℚ × ℚ × ℚ :=
  (return_mean / 100, return_stdev / 100, raise_mean / 100, raise_stdev / 100)

/-- Lines 136-140 of the source (withdrawal_simulation): the two means are
divided by 100 exactly when greater than 1; the stdevs are not touched. -/
def decNormalize (return_mean inflation_mean : ℚ) : ℚ × ℚ :=
  (if 1 < return_mean then return_mean / 100 else return_mean,
   if 1 < inflation_mean then inflation_mean / 100 else inflation_mean)

/-- Modelled from the spec: the normalization rule the specification
states for percentage-denominated fields — divide by 100 exactly when
the value is greater than 1, otherwise use it unchanged.  Kept separate
from the source-derived normalizations above so the two can be compared. -/
def pctNormSpec (x : ℚ) : ℚ := if 1 < x then x / 100 else x

/-- One time-stepped table as a pure recurrence: row 0 is the initial
row, and row t+1 of column c is obtained from row t of column c by the
step function f. -/
def stepTable {α : Type} (f : ℕ → ℕ → α → α) (init : ℕ → α) : ℕ → ℕ → α
  | 0, c => init c
  | t + 1, c => f t c (stepTable f init t c)

/-- The source's imperative pattern, embedded as state-passing:
start from an array whose every row is the initial row (np.full), then
for j in range(n): overwrite row j+1 with f applied to the current
row j.  The result is the final array, as a total entry function. -/
def loopTable {α : Type} (f : ℕ → ℕ → α → α) (init : ℕ → α) (n : ℕ) :
    ℕ → ℕ → α :=
  (List.range n).foldl
    (fun sims j => fun i c => if i = j + 1 then f j c (sims j c) else sims i c)
    (fun _ c => init c)

/-- growth_simulation from the source, with the randn draws for the
monthly-returns matrix (zR) and the annual-raises matrix (zG) passed
explicitly.  Mirrors the source line by line:
percent conversion, monthly conversion, the two sims_matrix calls,
the contribution schedule (compound by raises, np.repeat by 12,
prepend a zero row), the growth loop over n_months+11 steps, and the
final slice sims[:-11]. -/
def growth_simulation (start_capital return_mean return_stdev raise_mean
    raise_stdev monthly_contribution : ℚ) (n_years n_simulations : ℕ)
    (zR zG : ℕ → ℕ → ℚ) : Mat (Option ℚ) :=
  let p := accNormalize return_mean return_stdev raise_mean raise_stdev
  let rm' := p.1
  let rs' := p.2.1
  let gm' := p.2.2.1
  let gs' := p.2.2.2
  let n_months := 12 * n_years
  let monthly_return_mean := rm' / 12
  let monthly_return_stdev := rs' / sqrt12
  let monthly_returns :=
    sims_matrix (n_months + 12) n_simulations monthly_return_mean
      monthly_return_stdev zR
  let raises := sims_matrix n_years n_simulations (gm' + 1) gs' zG
  -- contributions: np.full((n_years+1, n_sims), mc); the raise loop;
  -- np.repeat(·, 12, axis=0); prepend one zero row.
  let contribYears :=
    loopTable (fun j c v => v * raises.entry j c)
      (fun _ => monthly_contribution) n_years
  let contributions : ℕ → ℕ → ℚ :=
    fun i c => if i = 0 then 0 else contribYears ((i - 1) / 12) c
  let sims :=
    loopTable
      (fun j c b =>
        b.bind fun principal =>
          growth principal (monthly_returns.entry j c) 1
            (contributions (j + 1) c))
      (fun _ => some start_capital) (n_months + 11)
  ⟨(n_months + 12) - 11, n_simulations, fun i j => sims i j⟩

/-- withdrawal_simulation from the source, with the randn draws for the
returns, inflation and withdrawal matrices passed explicitly.  Mirrors
the source: conditional percent conversion of the two means, monthly
conversion, three sims_matrix calls (the withdrawal one with stdev
0.05), the balance loop, then sims[sims < 0] = NaN, then sims/1e6. -/
def withdrawal_simulation (start_capital return_mean return_stdev
    inflation_mean inflation_stdev monthly_withdrawal : ℚ)
    (n_years n_simulations : ℕ) (zR zI zW : ℕ → ℕ → ℚ) : Mat (Option ℚ) :=
  let q := decNormalize return_mean inflation_mean
  let rm' := q.1
  let im' := q.2
  let n_months := 12 * n_years
  let monthly_return_mean := rm' / 12
  let monthly_return_stdev := return_stdev / sqrt12
  let monthly_inflation_mean := im' / 12
  let monthly_inflation_stdev := inflation_stdev / sqrt12
  let monthly_returns :=
    sims_matrix n_months n_simulations monthly_return_mean
      monthly_return_stdev zR
  let monthly_inflation :=
    sims_matrix n_months n_simulations monthly_inflation_mean
      monthly_inflation_stdev zI
  let monthly_withdrawals :=
    sims_matrix n_months n_simulations monthly_withdrawal 0.05 zW
  let sims :=
    loopTable
      (fun j c b =>
        b * (1 + monthly_returns.entry j c - monthly_inflation.entry j c) -
          monthly_withdrawals.entry j c)
      (fun _ => start_capital) n_months
  ⟨n_months + 1, n_simulations,
    fun i j => if sims i j < 0 then none else some (sims i j / 1000000)⟩

/-- The decumulation balance recurrence exactly as the specification
words it: balance[t+1] = balance[t] * (1 + return[t] - inflation[t])
- withdrawal[t], balance[0] = start. -/
def decBalance (start : ℚ) (R I W : ℕ → ℕ → ℚ) : ℕ → ℕ → ℚ
  | 0, _ => start
  | t + 1, j => decBalance start R I W t j * (1 + R t j - I t j) - W t j

/-- The all-zeros draw: every standard-normal sample equal to 0. -/
def zeroNoise : ℕ → ℕ → ℚ := fun _ _ => 0

/-- Drawn matrix helpers: the three matrices withdrawal_simulation builds,
as entry functions (used to state theorems about its recurrence). -/
def wdReturns (rm im rs : ℚ) (ny ns : ℕ) (z : ℕ → ℕ → ℚ) : ℕ → ℕ → ℚ :=
  (sims_matrix (12 * ny) ns ((decNormalize rm im).1 / 12) (rs / sqrt12) z).entry

/-- The drawn monthly-inflation matrix of withdrawal_simulation. -/
def wdInflation (rm im ifs : ℚ) (ny ns : ℕ) (z : ℕ → ℕ → ℚ) : ℕ → ℕ → ℚ :=
  (sims_matrix (12 * ny) ns ((decNormalize rm im).2 / 12) (ifs / sqrt12) z).entry

/-- The drawn monthly-withdrawals matrix of withdrawal_simulation
(mean = the requested withdrawal, stdev fixed at 0.05). -/
def wdWithdrawals (mw : ℚ) (ny ns : ℕ) (z : ℕ → ℕ → ℚ) : ℕ → ℕ → ℚ :=
  (sims_matrix (12 * ny) ns mw 0.05 z).entry

/-- The drawn monthly-returns matrix of growth_simulation. -/
def accReturns (rm rs : ℚ) (ny ns : ℕ) (z : ℕ → ℕ → ℚ) : ℕ → ℕ → ℚ :=
  (sims_matrix (12 * ny + 12) ns (rm / 100 / 12) (rs / 100 / sqrt12) z).entry

/-- The drawn annual-raises matrix of growth_simulation. -/
def accRaises (gm gs : ℚ) (ny ns : ℕ) (z : ℕ → ℕ → ℚ) : ℕ → ℕ → ℚ :=
  (sims_matrix ny ns (gm / 100 + 1) (gs / 100) z).entry

/-- The contribution schedule of growth_simulation: month 0 contributes
nothing; month i reads the raise-compounded annual value for year
(i-1)/12. -/
def accContrib (mc gm gs : ℚ) (ny ns : ℕ) (z : ℕ → ℕ → ℚ) : ℕ → ℕ → ℚ :=
  fun i c =>
    if i = 0 then 0
    else
      loopTable (fun t c' v => v * accRaises gm gs ny ns z t c')
        (fun _ => mc) ny ((i - 1) / 12) c

theorem sims_matrix_entry (rows cols : ℕ) (mean stdev : ℚ)
    (z : ℕ → ℕ → ℚ) (i j : ℕ) :
    (sims_matrix rows cols mean stdev z).entry i j = mean + z i j * stdev := rfl

theorem loopTable_succ_apply {α : Type} (f : ℕ → ℕ → α → α) (init : ℕ → α)
    (n i c : ℕ) :
    loopTable f init (n + 1) i c =
      if i = n + 1 then f n c (loopTable f init n n c)
      else loopTable f init n i c := by
  simp only [loopTable, List.range_succ, List.foldl_append, List.foldl_cons,
    List.foldl_nil]

/-- The imperative row-by-row loop computes the pure recurrence on every
row it has reached. -/
theorem loopTable_eq_stepTable {α : Type} (f : ℕ → ℕ → α → α)
    (init : ℕ → α) :
    ∀ n i c, i ≤ n → loopTable f init n i c = stepTable f init i c := by
  intro n
  induction n with
  | zero =>
    intro i c hi
    have hz : i = 0 := Nat.le_zero.mp hi
    subst hz
    rfl
  | succ n ih =>
    intro i c hi
    rw [loopTable_succ_apply]
    by_cases h : i = n + 1
    · subst h
      rw [if_pos rfl, ih n c (le_refl n)]
      rfl
    · rw [if_neg h, ih i c (by omega)]

/-- Rows the loop never wrote still hold the initial fill value, and
written rows are produced by the step function; so a pointwise-preserved
lower bound on the fill and the step is a lower bound on every cell. -/
theorem loopTable_nonneg (f : ℕ → ℕ → ℚ → ℚ) (init : ℕ → ℚ)
    (hf : ∀ t c v, 0 ≤ v → 0 ≤ f t c v) (h0 : ∀ c, 0 ≤ init c) :
    ∀ n i c, 0 ≤ loopTable f init n i c := by
  intro n
  induction n with
  | zero =>
    intro i c
    exact h0 c
  | succ n ih =>
    intro i c
    rw [loopTable_succ_apply]
    by_cases h : i = n + 1
    · rw [if_pos h]
      exact hf n c _ (ih n c)
    · rw [if_neg h]
      exact ih i c

theorem stepTable_decBalance (start : ℚ) (R I W : ℕ → ℕ → ℚ) :
    ∀ i j, stepTable (fun t c b => b * (1 + R t c - I t c) - W t c)
      (fun _ => start) i j = decBalance start R I W i j := by
  intro i j
  induction i with
  | zero => rfl
  | succ t ih => simp only [stepTable, decBalance, ih]

/-- What withdrawal_simulation returns, cell by cell: the spec recurrence
decBalance on the three drawn matrices, masked to NaN where negative,
then rescaled to millions. -/
theorem withdrawal_simulation_entry (sc rm rs im ifs mw : ℚ)
    (ny ns : ℕ) (zR zI zW : ℕ → ℕ → ℚ) (i j : ℕ) (hi : i ≤ 12 * ny) :
    (withdrawal_simulation sc rm rs im ifs mw ny ns zR zI zW).entry i j =
      if decBalance sc (wdReturns rm im rs ny ns zR)
          (wdInflation rm im ifs ny ns zI) (wdWithdrawals mw ny ns zW) i j < 0
      then none
      else some (decBalance sc (wdReturns rm im rs ny ns zR)
          (wdInflation rm im ifs ny ns zI)
          (wdWithdrawals mw ny ns zW) i j / 1000000) := by
  have h : (withdrawal_simulation sc rm rs im ifs mw ny ns zR zI zW).entry i j =
      (fun v : ℚ => if v < 0 then none else some (v / 1000000))
        (loopTable
          (fun t c b => b * (1 + wdReturns rm im rs ny ns zR t c -
            wdInflation rm im ifs ny ns zI t c) -
            wdWithdrawals mw ny ns zW t c)
          (fun _ => sc) (12 * ny) i j) := rfl
  rw [h, loopTable_eq_stepTable _ _ (12 * ny) i j hi, stepTable_decBalance]

/-- What growth_simulation returns, cell by cell (on the rows the loop
reaches): the pure recurrence that binds the previous balance through
the growth step at the drawn monthly rate with the scheduled
contribution. -/
theorem growth_simulation_entry (sc rm rs gm gs mc : ℚ) (ny ns : ℕ)
    (zR zG : ℕ → ℕ → ℚ) (i j : ℕ) (hi : i ≤ 12 * ny + 11) :
    (growth_simulation sc rm rs gm gs mc ny ns zR zG).entry i j =
      stepTable
        (fun t c b => b.bind fun principal =>
          growth principal (accReturns rm rs ny ns zR t c) 1
            (accContrib mc gm gs ny ns zG (t + 1) c))
        (fun _ => some sc) i j := by
  have h : (growth_simulation sc rm rs gm gs mc ny ns zR zG).entry i j =
      loopTable
        (fun t c b => b.bind fun principal =>
          growth principal (accReturns rm rs ny ns zR t c) 1
            (accContrib mc gm gs ny ns zG (t + 1) c))
        (fun _ => some sc) (12 * ny + 11) i j := rfl
  rw [h, loopTable_eq_stepTable _ _ (12 * ny + 11) i j hi]

/-- At the only compounding frequency the source ever passes (n = 1),
a nonzero rate makes the growth step a total function: the contribution
factor ((1+r)^1 - 1)/r collapses to 1 and the new balance is the rounded
value of principal * (1+r) + contribution. -/
theorem growth_rate_ne (p r c : ℚ) (hr : r ≠ 0) :
    growth p r 1 c = some (round2 (p * (1 + r) + c)) := by
  have h1 : r / ((1 : ℕ) : ℚ) = r := by norm_num
  simp only [growth, h1, if_neg hr, Nat.mul_one, pow_one, add_sub_cancel_left,
    div_self hr, mul_one]

/-- Ties-to-even rounding never drops below any integer lower bound of
its argument. -/
theorem le_roundHalfEven (k : ℤ) (x : ℚ) (h : (k : ℚ) ≤ x) :
    k ≤ roundHalfEven x := by
  have hf : k ≤ ⌊x⌋ := Int.le_floor.mpr h
  simp only [roundHalfEven]
  split
  · exact hf
  · split
    · omega
    · split
      · exact hf
      · omega

/-- Rounding to cents never drops below a lower bound that is itself a
whole number of cents. -/
theorem le_round2 (k : ℤ) (v : ℚ) (h : (k : ℚ) / 100 ≤ v) :
    (k : ℚ) / 100 ≤ round2 v := by
  have h1 : (k : ℚ) ≤ v * 100 := by linarith
  have h2 : k ≤ roundHalfEven (v * 100) := le_roundHalfEven k (v * 100) h1
  have h3 : (k : ℚ) ≤ ((roundHalfEven (v * 100) : ℤ) : ℚ) := by exact_mod_cast h2
  simp only [round2]
  linarith

/-- Any balance sequence driven by the growth step at one fixed positive
rate with nonnegative contributions stays defined, stays a nonnegative
whole number of cents, and never decreases from one step to the next. -/
theorem growth_seq_mono (r : ℚ) (hr : 0 < r) (C : ℕ → ℚ) (hC : ∀ t, 0 ≤ C t)
    (a : ℕ → Option ℚ) (k0 : ℤ) (hk0 : 0 ≤ k0)
    (ha0 : a 0 = some ((k0 : ℚ) / 100))
    (hstep : ∀ t, a (t + 1) = (a t).bind fun p => growth p r 1 (C t)) :
    ∀ i, ∃ k k' : ℤ, a i = some ((k : ℚ) / 100) ∧ 0 ≤ k ∧
      a (i + 1) = some ((k' : ℚ) / 100) ∧ k ≤ k' := by
  have step : ∀ t (k : ℤ), 0 ≤ k → a t = some ((k : ℚ) / 100) →
      ∃ k' : ℤ, a (t + 1) = some ((k' : ℚ) / 100) ∧ k ≤ k' := by
    intro t k hk hat
    have h1 : 0 ≤ (k : ℚ) / 100 := by positivity
    have hexp : (k : ℚ) / 100 * (1 + r) = (k : ℚ) / 100 + (k : ℚ) / 100 * r := by
      ring
    have h3 : 0 ≤ (k : ℚ) / 100 * r := mul_nonneg h1 hr.le
    have hv : (k : ℚ) / 100 ≤ (k : ℚ) / 100 * (1 + r) + C t := by
      rw [hexp]
      linarith [hC t]
    have h2 : a (t + 1) =
        some (round2 ((k : ℚ) / 100 * (1 + r) + C t)) := by
      rw [hstep t, hat, Option.some_bind,
        growth_rate_ne _ _ _ (ne_of_gt hr)]
    refine ⟨roundHalfEven (((k : ℚ) / 100 * (1 + r) + C t) * 100), ?_, ?_⟩
    · rw [h2]
      rfl
    · apply le_roundHalfEven
      linarith [hv]
  intro i
  induction i with
  | zero =>
    obtain ⟨k', h1, h2⟩ := step 0 k0 hk0 ha0
    exact ⟨k0, k', ha0, hk0, h1, h2⟩
  | succ t ih =>
    obtain ⟨k, k', h1, hk, h2, hkk⟩ := ih
    have hk' : 0 ≤ k' := le_trans hk hkk
    obtain ⟨k'', h3, h4⟩ := step (t + 1) k' hk' h2
    exact ⟨k', k'', h2, hk', h3, h4⟩

/-- C1 counterexample: the claimed rule (divide by 100 exactly when the
value exceeds 1) fails on the code.  growth_simulation divides
return_mean = 1/2 by 100 although 1/2 is not greater than 1, and
withdrawal_simulation leaves a return stdev of 2 unscaled in the drawn
monthly returns although 2 is greater than 1. -/
theorem c1_counterexample :
    (accNormalize (1/2) 5 2 1).1 = 1/200 ∧
    (1/200 : ℚ) ≠ pctNormSpec (1/2) ∧
    wdReturns 0 0 2 1 1 (fun _ _ => 1) 0 0 = 2 / sqrt12 ∧
    (2 / sqrt12 : ℚ) ≠ (2/100) / sqrt12 := by
  refine ⟨by norm_num [accNormalize], by norm_num [pctNormSpec], ?_, ?_⟩
  · norm_num [wdReturns, sims_matrix, decNormalize]
  · norm_num [sqrt12]

/-- C1 (amended): simulate_accumulation divides all four
percentage-denominated inputs by 100 unconditionally, while
simulate_decumulation applies the greater-than-1 rule to its two means
only; its stdev inputs are never rescaled. -/
theorem c1_amended (rm rs gm gs im : ℚ) :
    accNormalize rm rs gm gs = (rm/100, rs/100, gm/100, gs/100) ∧
    decNormalize rm im = (pctNormSpec rm, pctNormSpec im) :=
  ⟨rfl, rfl⟩

/-- C2 (code bug): at rate exactly 0 the growth step evaluates the
contribution term as 0/0, an undefined numeric value (NaN), and returns
it; the limit value contribution * n is never substituted.  Shown at
the concrete failing input growth(1000, 0, 1, 100) and for every
principal and contribution. -/
theorem c2_rate_zero_undefined :
    growth 1000 0 1 100 = none ∧ ∀ p c : ℚ, growth p 0 1 c = none := by
  constructor
  · norm_num [growth]
  · intro p c
    norm_num [growth]

/-- C3 counterexample: row 0 of simulate_decumulation is not the start
capital: with start_capital = 1 the returned cell is the rescaled value
1/1000000, not 1. -/
theorem c3_counterexample :
    (withdrawal_simulation 1 0 0 0 0 0 1 1 zeroNoise zeroNoise
        zeroNoise).entry 0 0 = some (1/1000000) ∧
    some ((1 : ℚ)/1000000) ≠ some (1 : ℚ) := by
  refine ⟨?_, by norm_num⟩
  rw [withdrawal_simulation_entry _ _ _ _ _ _ _ _ _ _ _ _ _ (by norm_num)]
  norm_num [decBalance]

/-- C3 (amended): row 0 of the accumulation table equals start_capital
in every column; row 0 of the decumulation table equals
start_capital / 1000000 in every column (for nonnegative start capital;
the table is rescaled to millions before being returned). -/
theorem c3_amended (sc rm rs gm gs mc : ℚ) (ny ns : ℕ)
    (zR zG : ℕ → ℕ → ℚ) (sc' rm' rs' im' ifs' mw : ℚ) (ny' ns' : ℕ)
    (zR' zI' zW' : ℕ → ℕ → ℚ) (j j' : ℕ)
    (hj : j < ns) (hj' : j' < ns') (hsc' : 0 ≤ sc') :
    (growth_simulation sc rm rs gm gs mc ny ns zR zG).entry 0 j = some sc ∧
    (withdrawal_simulation sc' rm' rs' im' ifs' mw ny' ns' zR' zI'
        zW').entry 0 j' = some (sc' / 1000000) := by
  constructor
  · rw [growth_simulation_entry _ _ _ _ _ _ _ _ _ _ 0 j (by omega)]
    rfl
  · rw [withdrawal_simulation_entry _ _ _ _ _ _ _ _ _ _ _ 0 j' (by omega)]
    have h : decBalance sc' (wdReturns rm' im' rs' ny' ns' zR')
        (wdInflation rm' im' ifs' ny' ns' zI')
        (wdWithdrawals mw ny' ns' zW') 0 j' = sc' := rfl
    rw [h, if_neg (not_lt.mpr hsc')]

theorem c3_witness :
    (growth_simulation 10000 7 2 3 1 100 30 100 zeroNoise zeroNoise).entry
        0 5 = some 10000 ∧
    (withdrawal_simulation 750000 4 7 25 15 3000 30 100 zeroNoise zeroNoise
        zeroNoise).entry 0 5 = some (750000 / 1000000) :=
  c3_amended 10000 7 2 3 1 100 30 100 zeroNoise zeroNoise
    750000 4 7 25 15 3000 30 100 zeroNoise zeroNoise zeroNoise 5 5
    (by decide) (by decide) (by norm_num)

/-- C5: the accumulation table has 12*n_years + 1 rows (the padded
array of 12*n_years + 12 rows minus the 11 truncated trailing rows) and
n_simulations columns, and the decumulation table has 12*n_years + 1
rows and n_simulations columns. -/
theorem c5_shapes (sc rm rs gm gs mc : ℚ) (ny ns : ℕ)
    (zR zG : ℕ → ℕ → ℚ) (sc' rm' rs' im' ifs' mw : ℚ) (ny' ns' : ℕ)
    (zR' zI' zW' : ℕ → ℕ → ℚ) (hny : 1 ≤ ny) (hns : 1 ≤ ns)
    (hny' : 1 ≤ ny') (hns' : 1 ≤ ns') :
    (growth_simulation sc rm rs gm gs mc ny ns zR zG).rows = 12 * ny + 1 ∧
    (growth_simulation sc rm rs gm gs mc ny ns zR zG).cols = ns ∧
    (withdrawal_simulation sc' rm' rs' im' ifs' mw ny' ns' zR' zI'
        zW').rows = 12 * ny' + 1 ∧
    (withdrawal_simulation sc' rm' rs' im' ifs' mw ny' ns' zR' zI'
        zW').cols = ns' := by
  refine ⟨?_, rfl, rfl, rfl⟩
  show (12 * ny + 12) - 11 = 12 * ny + 1
  omega

theorem c5_witness :
    (growth_simulation 10000 7 2 3 1 100 30 100 zeroNoise zeroNoise).rows =
        12 * 30 + 1 ∧
    (growth_simulation 10000 7 2 3 1 100 30 100 zeroNoise zeroNoise).cols =
        100 ∧
    (withdrawal_simulation 750000 4 7 25 15 3000 20 50 zeroNoise zeroNoise
        zeroNoise).rows = 12 * 20 + 1 ∧
    (withdrawal_simulation 750000 4 7 25 15 3000 20 50 zeroNoise zeroNoise
        zeroNoise).cols = 50 :=
  c5_shapes 10000 7 2 3 1 100 30 100 zeroNoise zeroNoise
    750000 4 7 25 15 3000 20 50 zeroNoise zeroNoise zeroNoise
    (by decide) (by decide) (by decide) (by decide)

/-- C6 counterexample: no call fails with any error.  sims_matrix with
rows = 0 returns an empty matrix, and both simulators called with
n_years = 0 return a well-formed one-row table whose only row is the
(rescaled) start capital, rather than failing eagerly. -/
theorem c6_counterexample :
    (sims_matrix 0 3 5 1 zeroNoise).rows = 0 ∧
    (withdrawal_simulation 1 0 0 0 0 0 0 1 zeroNoise zeroNoise
        zeroNoise).rows = 1 ∧
    (withdrawal_simulation 1 0 0 0 0 0 0 1 zeroNoise zeroNoise
        zeroNoise).entry 0 0 = some (1/1000000) ∧
    (growth_simulation 1 0 0 0 0 0 0 1 zeroNoise zeroNoise).rows = 1 ∧
    (growth_simulation 1 0 0 0 0 0 0 1 zeroNoise zeroNoise).entry 0 0 =
      some 1 := by
  refine ⟨rfl, rfl, ?_, rfl, ?_⟩
  · rw [withdrawal_simulation_entry _ _ _ _ _ _ _ _ _ _ _ _ _ (by norm_num)]
    norm_num [decBalance]
  · rw [growth_simulation_entry _ _ _ _ _ _ _ _ _ _ _ _ (by norm_num)]
    rfl

/-- C6 (amended): the code performs no input validation at all.
Degenerate dimensions flow through: rows = 0 or cols = 0 give an empty
noise matrix, n_years = 0 gives a one-row balance table, and
n_simulations = 0 gives a zero-column table; no error path exists. -/
theorem c6_amended (mean stdev : ℚ) (rows cols : ℕ) (z : ℕ → ℕ → ℚ)
    (sc rm rs gm gs mc : ℚ) (ny ns : ℕ) (zR zG : ℕ → ℕ → ℚ)
    (sc' rm' rs' im' ifs' mw : ℚ) (ny' ns' : ℕ)
    (zR' zI' zW' : ℕ → ℕ → ℚ) :
    (sims_matrix 0 cols mean stdev z).rows = 0 ∧
    (sims_matrix rows 0 mean stdev z).cols = 0 ∧
    (growth_simulation sc rm rs gm gs mc 0 ns zR zG).rows = 1 ∧
    (withdrawal_simulation sc' rm' rs' im' ifs' mw 0 ns' zR' zI'
        zW').rows = 1 ∧
    (growth_simulation sc rm rs gm gs mc ny 0 zR zG).cols = 0 ∧
    (withdrawal_simulation sc' rm' rs' im' ifs' mw ny' 0 zR' zI'
        zW').cols = 0 :=
  ⟨rfl, rfl, rfl, rfl, rfl, rfl⟩

/-- C9: with stdev = 0 every cell of the noise matrix equals the mean
exactly, whatever the draws. -/
theorem c9_stdev_zero_constant (rows cols : ℕ) (mean : ℚ)
    (z : ℕ → ℕ → ℚ) (i j : ℕ) (h1 : 1 ≤ rows) (h2 : 1 ≤ cols)
    (hi : i < rows) (hj : j < cols) :
    (sims_matrix rows cols mean 0 z).entry i j = mean := by
  simp [sims_matrix]

theorem c9_witness : (sims_matrix 2 3 7 0 zeroNoise).entry 1 2 = 7 :=
  c9_stdev_zero_constant 2 3 7 zeroNoise 1 2 (by decide) (by decide)
    (by decide) (by decide)

/-- C4: each cell of the decumulation table is the spec recurrence
balance(t+1) = balance(t) * (1 + return(t) - inflation(t)) -
withdrawal(t) on the three drawn matrices (inflation subtracted from
the growth rate, not applied to the withdrawal), with exactly the
negative cells replaced by the undefined sentinel and every value
divided by 1000000. -/
theorem c4_recurrence_mask_rescale (sc rm rs im ifs mw : ℚ) (ny ns : ℕ)
    (zR zI zW : ℕ → ℕ → ℚ) (hny : 1 ≤ ny) (hns : 1 ≤ ns) (i j t : ℕ)
    (hi : i ≤ 12 * ny) (hj : j < ns) (ht : t < 12 * ny) :
    (withdrawal_simulation sc rm rs im ifs mw ny ns zR zI zW).entry i j =
      (if decBalance sc (wdReturns rm im rs ny ns zR)
          (wdInflation rm im ifs ny ns zI)
          (wdWithdrawals mw ny ns zW) i j < 0 then none
       else some (decBalance sc (wdReturns rm im rs ny ns zR)
          (wdInflation rm im ifs ny ns zI)
          (wdWithdrawals mw ny ns zW) i j / 1000000)) ∧
    decBalance sc (wdReturns rm im rs ny ns zR)
        (wdInflation rm im ifs ny ns zI)
        (wdWithdrawals mw ny ns zW) (t + 1) j =
      decBalance sc (wdReturns rm im rs ny ns zR)
          (wdInflation rm im ifs ny ns zI)
          (wdWithdrawals mw ny ns zW) t j *
        (1 + wdReturns rm im rs ny ns zR t j -
          wdInflation rm im ifs ny ns zI t j) -
        wdWithdrawals mw ny ns zW t j :=
  ⟨withdrawal_simulation_entry sc rm rs im ifs mw ny ns zR zI zW i j hi,
   rfl⟩

theorem c4_witness :
    (withdrawal_simulation 750000 4 7 25 15 3000 1 1 zeroNoise zeroNoise
        zeroNoise).entry 3 0 =
      (if decBalance 750000 (wdReturns 4 25 7 1 1 zeroNoise)
          (wdInflation 4 25 15 1 1 zeroNoise)
          (wdWithdrawals 3000 1 1 zeroNoise) 3 0 < 0 then none
       else some (decBalance 750000 (wdReturns 4 25 7 1 1 zeroNoise)
          (wdInflation 4 25 15 1 1 zeroNoise)
          (wdWithdrawals 3000 1 1 zeroNoise) 3 0 / 1000000)) ∧
    decBalance 750000 (wdReturns 4 25 7 1 1 zeroNoise)
        (wdInflation 4 25 15 1 1 zeroNoise)
        (wdWithdrawals 3000 1 1 zeroNoise) (5 + 1) 0 =
      decBalance 750000 (wdReturns 4 25 7 1 1 zeroNoise)
          (wdInflation 4 25 15 1 1 zeroNoise)
          (wdWithdrawals 3000 1 1 zeroNoise) 5 0 *
        (1 + wdReturns 4 25 7 1 1 zeroNoise 5 0 -
          wdInflation 4 25 15 1 1 zeroNoise 5 0) -
        wdWithdrawals 3000 1 1 zeroNoise 5 0 :=
  c4_recurrence_mask_rescale 750000 4 7 25 15 3000 1 1 zeroNoise zeroNoise
    zeroNoise (by decide) (by decide) 3 0 5 (by decide) (by decide)
    (by decide)

/-- C8 counterexample: with monthly_withdrawal = 0 the withdrawals are
still drawn with stdev 0.05, so a draw of -20 makes the month-1 balance
1 - (-20 * 0.05) = 2 and the returned cell 2/1000000, not 1/1000000. -/
theorem c8_counterexample :
    (withdrawal_simulation 1 0 0 0 0 0 1 1 zeroNoise zeroNoise
        (fun _ _ => -20)).entry 1 0 = some (2/1000000) ∧
    some ((2 : ℚ)/1000000) ≠ some ((1 : ℚ)/1000000) := by
  refine ⟨?_, by norm_num⟩
  rw [withdrawal_simulation_entry _ _ _ _ _ _ _ _ _ _ _ _ _ (by norm_num)]
  norm_num [decBalance, wdReturns, wdInflation, wdWithdrawals, sims_matrix,
    decNormalize, zeroNoise, sqrt12]

/-- C8 (amended): the scenario start_capital = 1, all rates and the
withdrawal 0, n_years = 1, n_simulations = 1 returns a 13-row,
one-column table constantly equal to 1/1000000 provided the withdrawal
noise draws are all zero; the return and inflation draws are irrelevant
because those stdevs are 0, but the withdrawal matrix keeps its fixed
stdev of 0.05, so nonzero draws perturb the cells. -/
theorem c8_amended (zR zI zW : ℕ → ℕ → ℚ) (hzW : ∀ t j, zW t j = 0)
    (i : ℕ) (hi : i ≤ 12) :
    (withdrawal_simulation 1 0 0 0 0 0 1 1 zR zI zW).rows = 13 ∧
    (withdrawal_simulation 1 0 0 0 0 0 1 1 zR zI zW).cols = 1 ∧
    (withdrawal_simulation 1 0 0 0 0 0 1 1 zR zI zW).entry i 0 =
      some (1/1000000) := by
  refine ⟨rfl, rfl, ?_⟩
  rw [withdrawal_simulation_entry _ _ _ _ _ _ _ _ _ _ _ i 0 (by omega)]
  have hb : ∀ t, decBalance 1 (wdReturns 0 0 0 1 1 zR)
      (wdInflation 0 0 0 1 1 zI) (wdWithdrawals 0 1 1 zW) t 0 = 1 := by
    intro t
    induction t with
    | zero => rfl
    | succ t ih =>
      have hR : wdReturns 0 0 0 1 1 zR t 0 = 0 := by
        norm_num [wdReturns, sims_matrix, decNormalize]
      have hI : wdInflation 0 0 0 1 1 zI t 0 = 0 := by
        norm_num [wdInflation, sims_matrix, decNormalize]
      have hW : wdWithdrawals 0 1 1 zW t 0 = 0 := by
        simp [wdWithdrawals, sims_matrix, hzW]
      simp [decBalance, ih, hR, hI, hW]
  rw [hb i]
  norm_num

theorem c8_witness :
    (withdrawal_simulation 1 0 0 0 0 0 1 1 zeroNoise zeroNoise
        zeroNoise).rows = 13 ∧
    (withdrawal_simulation 1 0 0 0 0 0 1 1 zeroNoise zeroNoise
        zeroNoise).cols = 1 ∧
    (withdrawal_simulation 1 0 0 0 0 0 1 1 zeroNoise zeroNoise
        zeroNoise).entry 7 0 = some (1/1000000) :=
  c8_amended zeroNoise zeroNoise zeroNoise (fun _ _ => rfl) 7 (by decide)

/-- C10: the ruin mask is strict and applied once after the whole
recurrence: a cell whose raw balance is exactly 0 is returned as 0
(rescaled), a cell is the undefined sentinel exactly when its raw
balance is negative, and a negative balance at month t still enters the
month t+1 computation as its numeric value. -/
theorem c10_strict_single_cell_mask (sc rm rs im ifs mw : ℚ) (ny ns : ℕ)
    (zR zI zW : ℕ → ℕ → ℚ) (i j : ℕ) (hi : i ≤ 12 * ny) (hj : j < ns) :
    (decBalance sc (wdReturns rm im rs ny ns zR)
        (wdInflation rm im ifs ny ns zI)
        (wdWithdrawals mw ny ns zW) i j = 0 →
      (withdrawal_simulation sc rm rs im ifs mw ny ns zR zI zW).entry i j =
        some 0) ∧
    ((withdrawal_simulation sc rm rs im ifs mw ny ns zR zI zW).entry i j =
        none ↔
      decBalance sc (wdReturns rm im rs ny ns zR)
        (wdInflation rm im ifs ny ns zI)
        (wdWithdrawals mw ny ns zW) i j < 0) ∧
    (∀ t, decBalance sc (wdReturns rm im rs ny ns zR)
        (wdInflation rm im ifs ny ns zI)
        (wdWithdrawals mw ny ns zW) t j < 0 →
      decBalance sc (wdReturns rm im rs ny ns zR)
          (wdInflation rm im ifs ny ns zI)
          (wdWithdrawals mw ny ns zW) (t + 1) j =
        decBalance sc (wdReturns rm im rs ny ns zR)
            (wdInflation rm im ifs ny ns zI)
            (wdWithdrawals mw ny ns zW) t j *
          (1 + wdReturns rm im rs ny ns zR t j -
            wdInflation rm im ifs ny ns zI t j) -
          wdWithdrawals mw ny ns zW t j) := by
  rw [withdrawal_simulation_entry _ _ _ _ _ _ _ _ _ _ _ _ _ hi]
  refine ⟨?_, ?_, fun t _ => rfl⟩
  · intro h0
    rw [h0]
    norm_num
  · by_cases hb : decBalance sc (wdReturns rm im rs ny ns zR)
        (wdInflation rm im ifs ny ns zI)
        (wdWithdrawals mw ny ns zW) i j < 0
    · simp [hb]
    · simp [hb]

theorem c10_witness :
    (decBalance 5 (wdReturns 6 2 0 1 1 zeroNoise)
        (wdInflation 6 2 0 1 1 zeroNoise)
        (wdWithdrawals 10 1 1 zeroNoise) 2 0 = 0 →
      (withdrawal_simulation 5 6 0 2 0 10 1 1 zeroNoise zeroNoise
          zeroNoise).entry 2 0 = some 0) ∧
    ((withdrawal_simulation 5 6 0 2 0 10 1 1 zeroNoise zeroNoise
          zeroNoise).entry 2 0 = none ↔
      decBalance 5 (wdReturns 6 2 0 1 1 zeroNoise)
        (wdInflation 6 2 0 1 1 zeroNoise)
        (wdWithdrawals 10 1 1 zeroNoise) 2 0 < 0) ∧
    (∀ t, decBalance 5 (wdReturns 6 2 0 1 1 zeroNoise)
        (wdInflation 6 2 0 1 1 zeroNoise)
        (wdWithdrawals 10 1 1 zeroNoise) t 0 < 0 →
      decBalance 5 (wdReturns 6 2 0 1 1 zeroNoise)
          (wdInflation 6 2 0 1 1 zeroNoise)
          (wdWithdrawals 10 1 1 zeroNoise) (t + 1) 0 =
        decBalance 5 (wdReturns 6 2 0 1 1 zeroNoise)
            (wdInflation 6 2 0 1 1 zeroNoise)
            (wdWithdrawals 10 1 1 zeroNoise) t 0 *
          (1 + wdReturns 6 2 0 1 1 zeroNoise t 0 -
            wdInflation 6 2 0 1 1 zeroNoise t 0) -
          wdWithdrawals 10 1 1 zeroNoise t 0) :=
  c10_strict_single_cell_mask 5 6 0 2 0 10 1 1 zeroNoise zeroNoise
    zeroNoise 2 0 (by decide) (by decide)

/-- C7 counterexample: with a fixed positive return, zero stdevs and
zero contribution, a start capital of 1.004 drops to 1.00 at month 1:
the cent rounding inside the growth step outweighs one month of tiny
interest, so a column of the accumulation table can decrease. -/
theorem c7_counterexample :
    (growth_simulation (251/250) (1/1000000) 0 0 0 0 1 1 zeroNoise
        zeroNoise).entry 0 0 = some (251/250) ∧
    (growth_simulation (251/250) (1/1000000) 0 0 0 0 1 1 zeroNoise
        zeroNoise).entry 1 0 = some 1 ∧
    (1 : ℚ) < 251/250 := by
  refine ⟨?_, ?_, by norm_num⟩
  · rw [growth_simulation_entry _ _ _ _ _ _ _ _ _ _ _ _ (by norm_num)]
    rfl
  · rw [growth_simulation_entry _ _ _ _ _ _ _ _ _ _ _ _ (by norm_num)]
    have hR : accReturns (1/1000000) 0 1 1 zeroNoise 0 0 = 1/1200000000 := by
      norm_num [accReturns, sims_matrix, zeroNoise]
    have hC : accContrib 0 0 0 1 1 zeroNoise 1 0 = 0 := by
      simp only [accContrib]
      rw [if_neg (by norm_num), loopTable_eq_stepTable _ _ 1 _ _ (by norm_num)]
      rfl
    simp only [stepTable, hR, hC, Option.some_bind]
    rw [growth_rate_ne _ _ _ (by norm_num)]
    have h : (251/250 : ℚ) * (1 + 1/1200000000) + 0 =
        301200000251/300000000000 := by norm_num
    rw [h]
    have hm : (301200000251/300000000000 : ℚ) * 100 =
        301200000251/3000000000 := by norm_num
    have hf : (⌊(301200000251/3000000000 : ℚ)⌋ : ℤ) = 100 := by
      rw [Int.floor_eq_iff]
      norm_num
    simp only [round2, hm, roundHalfEven, hf]
    norm_num

/-- C7 (amended): with return_stdev = 0, raise_stdev = 0 and a positive
return mean, every column of the accumulation table is non-decreasing
from each row to the next, provided additionally that the start capital
is a nonnegative whole number of cents, the monthly contribution is
nonnegative, and the raise mean is at least -100 percent (so the
compounded contributions stay nonnegative); cent rounding makes the
extra provisos necessary. -/
theorem c7_amended (sc rm gm mc : ℚ) (ny ns : ℕ) (zR zG : ℕ → ℕ → ℚ)
    (hrm : 0 < rm) (k0 : ℤ) (hsc : sc = (k0 : ℚ) / 100) (hk0 : 0 ≤ k0)
    (hmc : 0 ≤ mc) (hgm : 0 ≤ gm / 100 + 1) (i j : ℕ)
    (hi : i < 12 * ny) (hj : j < ns) :
    ∃ a b : ℚ,
      (growth_simulation sc rm 0 gm 0 mc ny ns zR zG).entry i j = some a ∧
      (growth_simulation sc rm 0 gm 0 mc ny ns zR zG).entry (i + 1) j =
        some b ∧ a ≤ b := by
  have hr : 0 < rm / 100 / 12 := by positivity
  have hRval : ∀ t c, accReturns rm 0 ny ns zR t c = rm / 100 / 12 := by
    intro t c
    norm_num [accReturns, sims_matrix]
  have hRaise : ∀ t c, accRaises gm 0 ny ns zG t c = gm / 100 + 1 := by
    intro t c
    norm_num [accRaises, sims_matrix]
  have hCval : ∀ t c, 0 ≤ accContrib mc gm 0 ny ns zG t c := by
    intro t c
    simp only [accContrib]
    split
    · exact le_refl 0
    · apply loopTable_nonneg
      · intro t' c' v hv
        rw [hRaise t' c']
        exact mul_nonneg hv hgm
      · intro c''
        exact hmc
  have hstep : ∀ t,
      stepTable
        (fun t' c b => b.bind fun principal =>
          growth principal (accReturns rm 0 ny ns zR t' c) 1
            (accContrib mc gm 0 ny ns zG (t' + 1) c))
        (fun _ => some sc) (t + 1) j =
      (stepTable
        (fun t' c b => b.bind fun principal =>
          growth principal (accReturns rm 0 ny ns zR t' c) 1
            (accContrib mc gm 0 ny ns zG (t' + 1) c))
        (fun _ => some sc) t j).bind
        (fun p => growth p (rm / 100 / 12) 1
          (accContrib mc gm 0 ny ns zG (t + 1) j)) := by
    intro t
    rw [← hRval t j]
    rfl
  have key := growth_seq_mono (rm / 100 / 12) hr
    (fun t => accContrib mc gm 0 ny ns zG (t + 1) j)
    (fun t => hCval (t + 1) j)
    (fun i' => stepTable
      (fun t c b => b.bind fun principal =>
        growth principal (accReturns rm 0 ny ns zR t c) 1
          (accContrib mc gm 0 ny ns zG (t + 1) c))
      (fun _ => some sc) i' j)
    k0 hk0 (by rw [hsc]; rfl) hstep i
  obtain ⟨k, k', h1, hk, h2, hkk⟩ := key
  refine ⟨(k : ℚ) / 100, (k' : ℚ) / 100, ?_, ?_, ?_⟩
  · rw [growth_simulation_entry _ _ _ _ _ _ _ _ _ _ i j (by omega)]
    exact h1
  · rw [growth_simulation_entry _ _ _ _ _ _ _ _ _ _ (i + 1) j (by omega)]
    exact h2
  · have : (k : ℚ) ≤ (k' : ℚ) := by exact_mod_cast hkk
    linarith

theorem c7_witness :
    ∃ a b : ℚ,
      (growth_simulation 10000 7 0 0 0 100 1 1 zeroNoise
          zeroNoise).entry 0 0 = some a ∧
      (growth_simulation 10000 7 0 0 0 100 1 1 zeroNoise
          zeroNoise).entry (0 + 1) 0 = some b ∧ a ≤ b :=
  c7_amended 10000 7 0 100 1 1 zeroNoise zeroNoise (by norm_num) 1000000
    (by norm_num) (by norm_num) (by norm_num) (by norm_num) 0 0
    (by decide) (by decide)
